import Mathlib

/-!
Shallow embedding of the backend-orchestration and caching layer of the
danmu-tts server (files `src/tts_manager.py`, `src/cache_manager.py`,
`src/utils.py`, `src/backends/__init__.py`, `src/backends/edge_tts.py`),
together with proofs checking the natural-language specification against it.

Modelling conventions:
- Python floats (sizes in MB, timestamps in seconds) are modelled as exact
  rationals `ℚ`.
- Python byte strings are modelled as `List Nat` (each element a byte value).
- Python dicts are modelled as insertion-ordered association lists; an
  overwrite keeps the key at its original position, as a Python dict does.
- `async` functions have no concurrency-relevant behaviour in the modelled
  fragment; they are modelled as pure state-passing functions.
-/

namespace DanmuTTS

/-- Bytes of a Python `bytes` object: a list of values in `[0, 256)`. -/
abbrev Bytes := List Nat

/-! ## Association-list primitives (Python `dict` semantics) -/

/-- `m[k]` lookup: first entry with the given key (keys are unique in a real
dict, so "first" is exact). -/
def lookupKey {α : Type} (k : String) : List (String × α) → Option α
  | [] => none
  | (k₂, v) :: rest => if k₂ = k then some v else lookupKey k rest

/-- `m[k] = v` on a dict: replace in place if the key is present (a Python
dict keeps the key at its original position), else append at the end. -/
def insertOrReplace {α : Type} (k : String) (v : α) :
    List (String × α) → List (String × α)
  | [] => [(k, v)]
  | (k₂, v₂) :: rest =>
      if k₂ = k then (k, v) :: rest else (k₂, v₂) :: insertOrReplace k v rest

/-- `del m[k]` / `m.pop(k)`: remove the first entry with the given key. -/
def eraseKey {α : Type} (k : String) : List (String × α) → List (String × α)
  | [] => []
  | (k₂, v₂) :: rest =>
      if k₂ = k then rest else (k₂, v₂) :: eraseKey k rest

/-- The keys of an association list are pairwise distinct (always true of a
list that models a Python dict). -/
def keysNodup {α : Type} (m : List (String × α)) : Prop :=
  (m.map Prod.fst).Nodup

instance {α : Type} (m : List (String × α)) : Decidable (keysNodup m) := by
  unfold keysNodup; infer_instance

/-! ## `src/utils.py`: cache-key derivation and base64 -/

/-- UTF-8 encoding of one character (Python `str.encode()` on one code
point). -/
def utf8EncodeChar (c : Char) : List Nat :=
  let n := c.toNat
  if n < 128 then [n]
  else if n < 2048 then [192 + n / 64, 128 + n % 64]
  else if n < 65536 then [224 + n / 4096, 128 + (n / 64) % 64, 128 + n % 64]
  else [240 + n / 262144, 128 + (n / 4096) % 64, 128 + (n / 64) % 64, 128 + n % 64]

/-- Python `s.encode()`: UTF-8 bytes of a string. -/
def utf8Bytes (s : String) : Bytes :=
  s.data.flatMap utf8EncodeChar

/-- A single-quote character, used by Python `repr` of strings. -/
def squote : String := String.singleton (Char.ofNat 39)

/-- Python `f"{sorted(kwargs.items())}"` for the single keyword argument
`quality=q` that `TTSManager.generate_speech` passes to
`generate_cache_key` (src/tts_manager.py line 91): the `str` of
`[('quality', None)]` or `[('quality', '<q>')]`. -/
def kwargsRepr (quality : Option String) : String :=
  "[(" ++ squote ++ "quality" ++ squote ++ ", " ++
    (match quality with
     | none => "None"
     | some q => squote ++ q ++ squote) ++ ")]"

/-- The string `key_data` built by `generate_cache_key` (src/utils.py line
41): `f"{text}_{voice}_{backend}_{sorted(kwargs.items())}"`. -/
def keyData (text voice backend : String) (quality : Option String) : String :=
  text ++ "_" ++ voice ++ "_" ++ backend ++ "_" ++ kwargsRepr quality

/-! MD5 (`hashlib.md5(...).hexdigest()`), modelled bit-faithfully over `Nat`
with explicit reduction modulo `2 ^ 32`. -/

/-- Truncation to a 32-bit word. -/
def w32 (n : Nat) : Nat := n % 4294967296

/-- 32-bit left rotation (for `x < 2 ^ 32`). -/
def rotl32 (x s : Nat) : Nat := w32 (x * 2 ^ s) + x / 2 ^ (32 - s)

/-- Bitwise complement on 32 bits (for `x < 2 ^ 32`). -/
def not32 (x : Nat) : Nat := 4294967295 - x

/-- MD5 round function F. -/
def md5F (b c d : Nat) : Nat := (b &&& c) ||| (not32 b &&& d)

/-- MD5 round function G. -/
def md5G (b c d : Nat) : Nat := (d &&& b) ||| (not32 d &&& c)

/-- MD5 round function H. -/
def md5H (b c d : Nat) : Nat := (b ^^^ c) ^^^ d

/-- MD5 round function I. -/
def md5I (b c d : Nat) : Nat := c ^^^ (b ||| not32 d)

/-- MD5 per-round shift amounts. -/
def md5S : List Nat :=
  [7, 12, 17, 22, 7, 12, 17, 22, 7, 12, 17, 22, 7, 12, 17, 22,
   5, 9, 14, 20, 5, 9, 14, 20, 5, 9, 14, 20, 5, 9, 14, 20,
   4, 11, 16, 23, 4, 11, 16, 23, 4, 11, 16, 23, 4, 11, 16, 23,
   6, 10, 15, 21, 6, 10, 15, 21, 6, 10, 15, 21, 6, 10, 15, 21]

/-- MD5 sine-derived constants. -/
def md5K : List Nat :=
  [0xd76aa478, 0xe8c7b756, 0x242070db, 0xc1bdceee,
   0xf57c0faf, 0x4787c62a, 0xa8304613, 0xfd469501,
   0x698098d8, 0x8b44f7af, 0xffff5bb1, 0x895cd7be,
   0x6b901122, 0xfd987193, 0xa679438e, 0x49b40821,
   0xf61e2562, 0xc040b340, 0x265e5a51, 0xe9b6c7aa,
   0xd62f105d, 0x02441453, 0xd8a1e681, 0xe7d3fbc8,
   0x21e1cde6, 0xc33707d6, 0xf4d50d87, 0x455a14ed,
   0xa9e3e905, 0xfcefa3f8, 0x676f02d9, 0x8d2a4c8a,
   0xfffa3942, 0x8771f681, 0x6d9d6122, 0xfde5380c,
   0xa4beea44, 0x4bdecfa9, 0xf6bb4b60, 0xbebfbc70,
   0x289b7ec6, 0xeaa127fa, 0xd4ef3085, 0x04881d05,
   0xd9d4d039, 0xe6db99e5, 0x1fa27cf8, 0xc4ac5665,
   0xf4292244, 0x432aff97, 0xab9423a7, 0xfc93a039,
   0x655b59c3, 0x8f0ccc92, 0xffeff47d, 0x85845dd1,
   0x6fa87e4f, 0xfe2ce6e0, 0xa3014314, 0x4e0811a1,
   0xf7537e82, 0xbd3af235, 0x2ad7d2bb, 0xeb86d391]

/-- Little-endian bytes of a number, `width` bytes long. -/
def toLE (width n : Nat) : Bytes :=
  (List.range width).map fun i => n / 256 ^ i % 256

/-- Number from little-endian bytes. -/
def fromLE : Bytes → Nat
  | [] => 0
  | b :: rest => b + 256 * fromLE rest

/-- MD5 padding: append `0x80`, zero bytes up to 56 mod 64, then the 64-bit
little-endian bit length. -/
def md5Pad (msg : Bytes) : Bytes :=
  msg ++ [128] ++ List.replicate ((119 - msg.length % 64) % 64) 0 ++
    toLE 8 (w32 (8 * msg.length) + 4294967296 * w32 (8 * msg.length / 4294967296))

/-- Split a padded message (whose length is a multiple of 64) into its
64-byte blocks. -/
def md5Blocks (padded : Bytes) : List Bytes :=
  (List.range (padded.length / 64)).map fun i => (padded.drop (64 * i)).take 64

/-- One step of the MD5 compression loop. -/
def md5Step (M : List Nat) (st : Nat × Nat × Nat × Nat) (i : Nat) :
    Nat × Nat × Nat × Nat :=
  let (a, b, c, d) := st
  let fg : Nat × Nat :=
    if i < 16 then (md5F b c d, i)
    else if i < 32 then (md5G b c d, (5 * i + 1) % 16)
    else if i < 48 then (md5H b c d, (3 * i + 5) % 16)
    else (md5I b c d, (7 * i) % 16)
  let f := w32 (fg.1 + a + md5K.getD i 0 + M.getD fg.2 0)
  (d, w32 (b + rotl32 f (md5S.getD i 0)), b, c)

/-- MD5 compression of one 64-byte block. -/
def md5Block (st : Nat × Nat × Nat × Nat) (block : Bytes) :
    Nat × Nat × Nat × Nat :=
  let M := (List.range 16).map fun j => fromLE ((block.drop (4 * j)).take 4)
  let r := (List.range 64).foldl (md5Step M) st
  (w32 (st.1 + r.1), w32 (st.2.1 + r.2.1), w32 (st.2.2.1 + r.2.2.1),
   w32 (st.2.2.2 + r.2.2.2))

/-- MD5 digest (16 bytes) of a byte message. -/
def md5Digest (msg : Bytes) : Bytes :=
  let r := (md5Blocks (md5Pad msg)).foldl md5Block
    (0x67452301, 0xefcdab89, 0x98badcfe, 0x10325476)
  toLE 4 r.1 ++ toLE 4 r.2.1 ++ toLE 4 r.2.2.1 ++ toLE 4 r.2.2.2

/-- Lowercase hex digit. -/
def hexDigit (n : Nat) : Char := "0123456789abcdef".data.getD n (Char.ofNat 48)

/-- Two lowercase hex digits of one byte. -/
def byteHex (b : Nat) : List Char := [hexDigit (b / 16), hexDigit (b % 16)]

/-- `hashlib.md5(bs).hexdigest()`: 32 lowercase hex characters. -/
def md5hex (msg : Bytes) : String :=
  String.mk ((md5Digest msg).flatMap byteHex)

/-- `generate_cache_key` (src/utils.py lines 39-42): the MD5 hex digest of
the UTF-8 encoding of `key_data`.  `TTSManager.generate_speech` calls it
with exactly one keyword argument `quality`. -/
def generate_cache_key (text voice backend : String) (quality : Option String) :
    String :=
  md5hex (utf8Bytes (keyData text voice backend quality))

/-- Base64 alphabet. -/
def b64Alphabet : List Char :=
  "ABCDEFGHIJKLMNOPQRSTUVWXYZabcdefghijklmnopqrstuvwxyz0123456789+/".data

/-- Base64 encoding of byte groups, with `=` padding. -/
def b64Groups : Bytes → List Char
  | [] => []
  | [a] => [b64Alphabet.getD (a / 4) (Char.ofNat 65),
            b64Alphabet.getD (a % 4 * 16) (Char.ofNat 65),
            Char.ofNat 61, Char.ofNat 61]
  | [a, b] => [b64Alphabet.getD (a / 4) (Char.ofNat 65),
               b64Alphabet.getD (a % 4 * 16 + b / 16) (Char.ofNat 65),
               b64Alphabet.getD (b % 16 * 4) (Char.ofNat 65),
               Char.ofNat 61]
  | a :: b :: c :: rest =>
      b64Alphabet.getD (a / 4) (Char.ofNat 65) ::
      b64Alphabet.getD (a % 4 * 16 + b / 16) (Char.ofNat 65) ::
      b64Alphabet.getD (b % 16 * 4 + c / 64) (Char.ofNat 65) ::
      b64Alphabet.getD (c % 64) (Char.ofNat 65) :: b64Groups rest

/-- `audio_to_base64` (src/utils.py lines 29-31):
`base64.b64encode(audio_data).decode("utf-8")`. -/
def audio_to_base64 (audio : Bytes) : String :=
  String.mk (b64Groups audio)

/-! ## `src/backends/__init__.py`: default streaming fallback -/

/-- `BaseTTSBackend.stream_speech` (src/backends/__init__.py lines 36-44):
chunk a completed audio buffer into slices
`audio_data[i : i + 4096]` for `i in range(0, len(audio_data), 4096)`. -/
def streamChunks : Bytes → List Bytes
  | [] => []
  | l@(_ :: _) => l.take 4096 :: streamChunks (l.drop 4096)
  termination_by l => l.length
  decreasing_by simp_all [List.length_drop]; omega

/-! ## `src/cache_manager.py`: memory-tier cache

The claims under check concern the memory tier (`cache_type == "memory"`,
the default configuration).  The file and redis tiers share the outer
`get`/`set` dispatch but are filesystem/network-bound and are not modelled.
-/

/-- A value of `self.memory_cache[key]` (src/cache_manager.py lines
117-121): `{"data": ..., "timestamp": ..., "size_mb": ...}`. -/
structure CacheEntry where
  data : String
  timestamp : ℚ
  size_mb : ℚ
deriving DecidableEq, Repr

/-- The mutable state of `CacheManager` relevant to the memory tier:
`memory_cache` and the `cache_stats` counters (src/cache_manager.py lines
23-24). -/
structure CacheState where
  memory_cache : List (String × CacheEntry)
  hits : Nat
  misses : Nat
  size_mb : ℚ
deriving DecidableEq, Repr

/-- `CacheManager.__init__` state: empty dict,
`{"hits": 0, "misses": 0, "size_mb": 0}`. -/
def initialCache : CacheState :=
  { memory_cache := [], hits := 0, misses := 0, size_mb := 0 }

/-- The cache-relevant configuration (`settings.performance.cache`):
`enabled`, `max_size_mb`, `ttl_seconds`.  `type` is fixed to `"memory"`. -/
structure CacheConfig where
  enabled : Bool
  max_size_mb : ℚ
  ttl_seconds : ℚ

/-- Sum of the recorded `size_mb` fields of the entries present. -/
def entrySum (m : List (String × CacheEntry)) : ℚ :=
  (m.map fun p => p.2.size_mb).sum

/-- `CacheManager._get_memory` (src/cache_manager.py lines 93-106): on a
present key, a TTL-valid entry is a hit (`cache_stats["hits"] += 1`, return
the data); an expired entry is deleted (`del self.memory_cache[key]`,
without adjusting `cache_stats["size_mb"]`) and the result is `None`. -/
def getMemory (ttl : ℚ) (s : CacheState) (key : String) (now : ℚ) :
    Option String × CacheState :=
  match lookupKey key s.memory_cache with
  | some entry =>
      if now - entry.timestamp < ttl then
        (some entry.data, { s with hits := s.hits + 1 })
      else
        (none, { s with memory_cache := eraseKey key s.memory_cache })
  | none => (none, s)

/-- `len(data.encode()) / (1024 * 1024)` (src/cache_manager.py line 111),
as an exact rational. -/
def dataSizeMb (data : String) : ℚ :=
  ((utf8Bytes data).length : ℚ) / (1024 * 1024)

/-- Stable-ascending insertion by `timestamp` (helper for `sortByTs`). -/
def insertByTs (x : String × CacheEntry) :
    List (String × CacheEntry) → List (String × CacheEntry)
  | [] => [x]
  | y :: ys =>
      if y.2.timestamp < x.2.timestamp then y :: insertByTs x ys
      else x :: y :: ys

/-- `sorted(self.memory_cache.keys(), key=lambda k: ...["timestamp"])`
(src/cache_manager.py lines 185-187), carried out on the (key, entry) pairs:
a stable ascending sort by insertion timestamp. -/
def sortByTs (m : List (String × CacheEntry)) : List (String × CacheEntry) :=
  m.foldr insertByTs []

/-- The loop of `CacheManager._evict_memory` (src/cache_manager.py lines
192-197): walk the timestamp-sorted keys; stop as soon as
`cache_stats["size_mb"] <= target_size`, else `pop` the key and subtract the
popped entry's recorded `size_mb`. -/
def evictLoop (target : ℚ) :
    List (String × CacheEntry) → CacheState → CacheState
  | [], s => s
  | (key, entry) :: rest, s =>
      if s.size_mb ≤ target then s
      else
        evictLoop target rest
          { s with
            memory_cache := eraseKey key s.memory_cache,
            size_mb := s.size_mb - entry.size_mb }

/-- `CacheManager._evict_memory` (src/cache_manager.py lines 179-199):
no-op on an empty dict; otherwise evict in timestamp order down to
`target_size = max_size_mb * 0.8`. -/
def evictMemory (maxMb : ℚ) (s : CacheState) : CacheState :=
  if s.memory_cache.isEmpty then s
  else evictLoop (maxMb * 0.8) (sortByTs s.memory_cache) s

/-- Insertion step of `_set_memory` (src/cache_manager.py lines 117-123):
`self.memory_cache[key] = {...}` then `cache_stats["size_mb"] += data_size_mb`. -/
def insertEntry (s : CacheState) (key data : String) (now : ℚ) : CacheState :=
  { s with
    memory_cache :=
      insertOrReplace key ⟨data, now, dataSizeMb data⟩ s.memory_cache,
    size_mb := s.size_mb + dataSizeMb data }

/-- `CacheManager._set_memory` (src/cache_manager.py lines 108-124): evict
first when `cache_stats["size_mb"] + data_size_mb > max_size_mb`, then
insert unconditionally. -/
def setMemory (maxMb : ℚ) (s : CacheState) (key data : String) (now : ℚ) :
    CacheState :=
  let s₁ := if s.size_mb + dataSizeMb data > maxMb then evictMemory maxMb s else s
  insertEntry s₁ key data now

/-- `self.memory_cache.pop(key)` followed by
`cache_stats["size_mb"] -= entry["size_mb"]` (src/cache_manager.py lines
214-216); a no-op if the key is absent (cannot happen in the source, where
the popped keys are drawn from the dict itself). -/
def popKey (s : CacheState) (key : String) : CacheState :=
  match lookupKey key s.memory_cache with
  | some entry =>
      { s with
        memory_cache := eraseKey key s.memory_cache,
        size_mb := s.size_mb - entry.size_mb }
  | none => s

/-- One pass of the background `CacheManager._cleanup_task` loop body
(src/cache_manager.py lines 207-216): collect the keys with
`current_time - timestamp > ttl_seconds` (strict), then pop each and
subtract its recorded size. -/
def cleanupSweep (ttl : ℚ) (s : CacheState) (now : ℚ) : CacheState :=
  let expiredKeys :=
    (s.memory_cache.filter fun p => decide (now - p.2.timestamp > ttl)).map Prod.fst
  expiredKeys.foldl popKey s

/-- `CacheManager.clear` for the memory tier (src/cache_manager.py lines
241-257): drop all entries, reset `size_mb`, `hits` and `misses`. -/
def clearMemory (_s : CacheState) : CacheState :=
  { memory_cache := [], hits := 0, misses := 0, size_mb := 0 }

/-- `CacheManager.get` (src/cache_manager.py lines 58-74) specialised to the
memory tier: `None` immediately when the cache is disabled, else
`_get_memory`.  (The trailing `misses` increment of the source is
unreachable for the memory tier, whose branch returns directly.) -/
def cacheGet (cfg : CacheConfig) (s : CacheState) (key : String) (now : ℚ) :
    Option String × CacheState :=
  if cfg.enabled then getMemory cfg.ttl_seconds s key now else (none, s)

/-- `CacheManager.set` (src/cache_manager.py lines 76-91) specialised to the
memory tier. -/
def cacheSet (cfg : CacheConfig) (s : CacheState) (key data : String) (now : ℚ) :
    CacheState :=
  if cfg.enabled then setMemory cfg.max_size_mb s key data now else s

/-! ## Backends (`src/backends/__init__.py`, `src/backends/edge_tts.py`) -/

/-- Python `text.strip()`: remove leading and trailing whitespace
characters. -/
def pyStrip (s : String) : String :=
  String.mk
    (((s.data.dropWhile Char.isWhitespace).reverse.dropWhile
        Char.isWhitespace).reverse)

/-- A live backend instance as the orchestrator sees it: its class name
(used for `backend_usage` statistics), the result of `is_available()`, and
its `generate_speech`, which either raises (`Except.error`) or returns
audio bytes. -/
structure Backend where
  name : String
  available : Bool
  synth : String → Option String → Except String Bytes

/-- `EdgeTTSBackend.generate_speech` (src/backends/edge_tts.py lines
37-58): empty bytes for text that is empty after stripping, otherwise the
bytes produced by the Edge network engine (abstracted as `net`, applied to
the text and the selected voice, defaulting to `"zh-CN-XiaoxiaoNeural"`);
engine exceptions are re-raised. -/
def edgeSynth (net : String → String → Except String Bytes)
    (text : String) (voice : Option String) : Except String Bytes :=
  if pyStrip text = "" then Except.ok []
  else net text (voice.getD "zh-CN-XiaoxiaoNeural")

/-- An `EdgeTTSBackend` instance with the given availability and engine. -/
def edgeBackend (available : Bool) (net : String → String → Except String Bytes) :
    Backend :=
  { name := "EdgeTTSBackend", available := available, synth := edgeSynth net }

/-! ## `src/tts_manager.py`: the orchestrator -/

/-- The configuration consumed by the orchestrator: `tts.primary_backend`,
`tts.fallback_backends` and the cache configuration.  (The `audio.*` values
echoed into miss-path metadata are not modelled; see `Meta`.) -/
structure Settings where
  primary_backend : String
  fallback_backends : List String
  cache : CacheConfig

/-- `TTSManager.stats` (src/tts_manager.py lines 26-31), minus
`start_time`. -/
structure Stats where
  total_requests : Nat
  cache_hits : Nat
  backend_usage : List (String × Nat)
deriving DecidableEq, Repr

/-- The orchestrator state: the backend registry, the cache manager state,
the stats counters, plus an instrumentation counter `synth_calls` recording
how many times any backend's `generate_speech` has been invoked (used to
state "no backend is invoked"; it is not a field of the source class). -/
structure ManagerState where
  backends : List (String × Backend)
  cache : CacheState
  stats : Stats
  synth_calls : Nat

/-- The response metadata.  The hit path of the source returns
`{"cached": True, "backend": "cache"}`; the miss path returns
`{"backend": name, "voice": ..., "sample_rate": ..., "format": ...}` — with
no `"cached"` key, i.e. falsy, modelled as `cached = false`.  The
config-echo fields (`voice`, `sample_rate`, `format`) are not modelled. -/
structure Meta where
  cached : Bool
  backend : String
deriving DecidableEq, Repr

/-- The errors `generate_speech` can raise:
`Exception("No available TTS backend")` (src/tts_manager.py line 105) and a
backend exception propagating out of `generate_speech`. -/
inductive GenError where
  | noBackend
  | synthFailed (msg : String)
deriving DecidableEq, Repr

/-- The quality-derived priority order of `TTSManager._select_backend`
(src/tts_manager.py lines 210-220). -/
def priorityOrder (settings : Settings) (quality : Option String) : List String :=
  if quality = some "high" then ["xtts", "edge", "piper"]
  else if quality = some "low" ∨ quality = some "fast" then ["edge", "piper", "xtts"]
  else settings.primary_backend :: settings.fallback_backends

/-- The find-first-available loop of `TTSManager._select_backend`
(src/tts_manager.py lines 222-229): skip names that are not registered,
return the first registered backend whose `is_available()` is true. -/
def firstAvailable (bks : List (String × Backend)) : List String → Option Backend
  | [] => none
  | n :: rest =>
      match lookupKey n bks with
      | some b => if b.available then some b else firstAvailable bks rest
      | none => firstAvailable bks rest

/-- `TTSManager._select_backend` (src/tts_manager.py lines 200-229): a
preferred backend that is registered and available is returned; otherwise
(unregistered or unavailable) selection falls through to the
quality-derived auto order. -/
def selectBackend (settings : Settings) (bks : List (String × Backend))
    (preferred quality : Option String) : Option Backend :=
  match preferred with
  | some p =>
      match lookupKey p bks with
      | some b =>
          if b.available then some b
          else firstAvailable bks (priorityOrder settings quality)
      | none => firstAvailable bks (priorityOrder settings quality)
  | none => firstAvailable bks (priorityOrder settings quality)

/-- `self.stats["backend_usage"][name] = .get(name, 0) + 1`
(src/tts_manager.py lines 119-121). -/
def bumpUsage (m : List (String × Nat)) (k : String) : List (String × Nat) :=
  insertOrReplace k ((lookupKey k m).getD 0 + 1) m

/-- The part of `TTSManager.generate_speech` after the cache lookup missed
(src/tts_manager.py lines 102-130): select a backend (raising on `None`),
invoke its `generate_speech` (counted in `synth_calls`), base64-encode,
cache the result when caching is enabled, bump the per-backend usage
counter, and return the payload with miss-path metadata. -/
def synthesizePath (settings : Settings) (st : ManagerState) (text : String)
    (voice backend quality : Option String) (now : ℚ) (key : String) :
    Except GenError (String × Meta) × ManagerState :=
  match selectBackend settings st.backends backend quality with
  | none => (Except.error GenError.noBackend, st)
  | some b =>
      let st₁ := { st with synth_calls := st.synth_calls + 1 }
      match b.synth text voice with
      | Except.error e => (Except.error (GenError.synthFailed e), st₁)
      | Except.ok audioData =>
          let audioB64 := audio_to_base64 audioData
          let st₂ :=
            if settings.cache.enabled then
              { st₁ with cache := cacheSet settings.cache st₁.cache key audioB64 now }
            else st₁
          let st₃ :=
            { st₂ with
              stats :=
                { st₂.stats with
                  backend_usage := bumpUsage st₂.stats.backend_usage b.name } }
          (Except.ok (audioB64, ⟨false, b.name⟩), st₃)

/-- `TTSManager.generate_speech` (src/tts_manager.py lines 80-130):
increment `total_requests`, derive the cache key from
`(text, voice or "default", backend or "auto", quality=quality)`, consult
the cache when enabled, and return the cached payload with
`{"cached": True, "backend": "cache"}` when the cached value is truthy
(`if cached_audio:` — non-`None` and non-empty); otherwise continue with
`synthesizePath`. -/
def generate (settings : Settings) (st : ManagerState) (text : String)
    (voice backend quality : Option String) (now : ℚ) :
    Except GenError (String × Meta) × ManagerState :=
  let st₁ :=
    { st with
      stats := { st.stats with total_requests := st.stats.total_requests + 1 } }
  let key := generate_cache_key text (voice.getD "default") (backend.getD "auto") quality
  let cacheRes :=
    if settings.cache.enabled then cacheGet settings.cache st₁.cache key now
    else (none, st₁.cache)
  let st₂ := { st₁ with cache := cacheRes.2 }
  match cacheRes.1 with
  | some audio =>
      if audio = "" then synthesizePath settings st₂ text voice backend quality now key
      else
        (Except.ok (audio, ⟨true, "cache"⟩),
         { st₂ with
           stats := { st₂.stats with cache_hits := st₂.stats.cache_hits + 1 } })
  | none => synthesizePath settings st₂ text voice backend quality now key

/-! ## Operation sequences over the memory tier (for the state invariant) -/

/-- The memory-tier operations of `CacheManager`: `set`, `get` (with lazy
expiry), forced eviction, one background-sweep pass, and `clear`. -/
inductive CacheOp where
  | set (key data : String) (now : ℚ)
  | get (key : String) (now : ℚ)
  | evict
  | sweep (now : ℚ)
  | clear
deriving Repr

/-- Apply one memory-tier operation to the cache state. -/
def runOp (maxMb ttl : ℚ) (s : CacheState) : CacheOp → CacheState
  | CacheOp.set key data now => setMemory maxMb s key data now
  | CacheOp.get key now => (getMemory ttl s key now).2
  | CacheOp.evict => evictMemory maxMb s
  | CacheOp.sweep now => cleanupSweep ttl s now
  | CacheOp.clear => clearMemory s

/-- Apply a sequence of memory-tier operations, oldest first. -/
def runOps (maxMb ttl : ℚ) (s : CacheState) (ops : List CacheOp) : CacheState :=
  ops.foldl (runOp maxMb ttl) s

/-- Every recorded entry size is nonnegative. -/
def sizesNonneg (m : List (String × CacheEntry)) : Prop :=
  ∀ p ∈ m, 0 ≤ p.2.size_mb

instance (m : List (String × CacheEntry)) : Decidable (sizesNonneg m) := by
  unfold sizesNonneg; infer_instance

/-- The tracked `cache_stats["size_mb"]` never undercounts the entries
actually present (with the dict well-formedness that keys are unique and
recorded sizes nonnegative). -/
def sizeOvercount (s : CacheState) : Prop :=
  keysNodup s.memory_cache ∧ sizesNonneg s.memory_cache ∧
    entrySum s.memory_cache ≤ s.size_mb

instance (s : CacheState) : Decidable (sizeOvercount s) := by
  unfold sizeOvercount; infer_instance

/-- Exact bookkeeping: the tracked size equals the sum of the recorded
entry sizes, keys are unique, and recorded sizes are nonnegative. -/
def cacheWF (s : CacheState) : Prop :=
  keysNodup s.memory_cache ∧ sizesNonneg s.memory_cache ∧
    entrySum s.memory_cache = s.size_mb

instance (s : CacheState) : Decidable (cacheWF s) := by
  unfold cacheWF; infer_instance

/-- Erase a list of keys in order (the cumulative effect of the eviction
loop's `pop` calls on `memory_cache`). -/
def dropKeys (ks : List String) (m : List (String × CacheEntry)) :
    List (String × CacheEntry) :=
  ks.foldl (fun acc k => eraseKey k acc) m

/-- Modelled from the spec: "Walk the priority order, returning the first
backend whose `get_status().available` is true" — the first name in the
order that is registered with an available backend, looked up in the
registry.  Used only to state that the source's `firstAvailable` loop
refines the spec's words. -/
def specSelect (bks : List (String × Backend)) (names : List String) :
    Option Backend :=
  (names.find? fun n => ((lookupKey n bks).map Backend.available).getD false).bind
    fun n => lookupKey n bks

/-! ## Concrete scenarios used by witnesses and counterexamples -/

/-- A default-flavoured settings record: primary backend `"edge"`, fallback
`["piper"]`, cache enabled with the default 500 MB / 3600 s budget
(src/config.py lines 23-26 and 42-46). -/
def demoSettings : Settings :=
  { primary_backend := "edge", fallback_backends := ["piper"],
    cache := { enabled := true, max_size_mb := 500, ttl_seconds := 3600 } }

/-- A deterministic Edge engine producing a fixed three-byte payload. -/
def demoNet : String → String → Except String Bytes :=
  fun _ _ => Except.ok [1, 2, 3]

/-- Fresh orchestrator state whose registry holds one available Edge
backend driven by the given engine. -/
def edgeOnlyState (net : String → String → Except String Bytes) : ManagerState :=
  { backends := [("edge", edgeBackend true net)],
    cache := initialCache,
    stats := { total_requests := 0, cache_hits := 0, backend_usage := [] },
    synth_calls := 0 }

/-- The state after one successful synthesis of `"hi"` from a fresh state:
the first call of the C1 scenario. -/
def demoStateAfterFirst : ManagerState :=
  (generate demoSettings (edgeOnlyState demoNet) "hi" none none none 0).2

/-- Registry for the explicit-backend fallback counterexample: `"edge"`
registered but unavailable, `"piper"` registered and available. -/
def mixedRegistry : List (String × Backend) :=
  [("edge", edgeBackend false demoNet),
   ("piper", { name := "PiperTTSBackend", available := true,
               synth := fun _ _ => Except.ok [] })]

/-- A registry in which every backend reports unavailable. -/
def noneAvailRegistry : List (String × Backend) :=
  [("edge", edgeBackend false demoNet),
   ("piper", { name := "PiperTTSBackend", available := false,
               synth := fun _ _ => Except.ok [] })]

/-- Orchestrator state over `noneAvailRegistry` with an empty cache. -/
def noneAvailState : ManagerState :=
  { backends := noneAvailRegistry,
    cache := initialCache,
    stats := { total_requests := 0, cache_hits := 0, backend_usage := [] },
    synth_calls := 0 }

/-- Tiny size budget (3 bytes) used to exercise eviction with short
strings. -/
def tinyMax : ℚ := 3 / 1048576

/-- A consistent one-entry cache state holding a 2-byte payload. -/
def tinyState : CacheState :=
  { memory_cache := [("a", { data := "aa", timestamp := 0,
                             size_mb := 2 / 1048576 })],
    hits := 0, misses := 0, size_mb := 2 / 1048576 }

/-- A drifted cache state: two inserts, two lazy-expiry removals (which do
not adjust the tracked size), then one more insert, under `tinyMax` and a
TTL of 1 second.  Its tracked size (6 bytes worth) exceeds the sum of the
present entries (2 bytes worth) by more than the whole budget. -/
def driftState : CacheState :=
  setMemory tinyMax
    ((getMemory 1 ((getMemory 1
        (setMemory tinyMax (setMemory tinyMax initialCache "a" "aa" 0) "b" "aa" 0)
        "a" 2).2) "b" 2).2)
    "c" "aa" 2

/-- The state after `generate_speech(" ")` on a fresh Edge-only state: a
successful call whose payload is the empty string, now cached under the
request's key. -/
def demoEmptyAfterFirst : ManagerState :=
  (generate demoSettings (edgeOnlyState demoNet) " " none none none 0).2

/-! ## Association-list lemmas -/

theorem lookupKey_insertOrReplace_self {α : Type} (k : String) (v : α)
    (m : List (String × α)) : lookupKey k (insertOrReplace k v m) = some v := by
  induction m with
  | nil => simp [insertOrReplace, lookupKey]
  | cons hd rest ih =>
      obtain ⟨k₂, v₂⟩ := hd
      by_cases h : k₂ = k
      · simp [insertOrReplace, h, lookupKey]
      · simp [insertOrReplace, h, lookupKey, ih]

theorem lookupKey_mem {α : Type} {k : String} {v : α} {m : List (String × α)}
    (h : lookupKey k m = some v) : (k, v) ∈ m := by
  induction m with
  | nil => simp [lookupKey] at h
  | cons hd rest ih =>
      obtain ⟨k₂, v₂⟩ := hd
      by_cases hk : k₂ = k
      · simp [lookupKey, hk] at h
        subst hk; subst h; exact List.mem_cons_self _ _
      · simp [lookupKey, hk] at h
        exact List.mem_cons_of_mem _ (ih h)

theorem eraseKey_sublist {α : Type} (k : String) (m : List (String × α)) :
    (eraseKey k m).Sublist m := by
  induction m with
  | nil => simp [eraseKey]
  | cons hd rest ih =>
      obtain ⟨k₂, v₂⟩ := hd
      by_cases h : k₂ = k
      · simp [eraseKey, h]
      · simpa [eraseKey, h] using ih.cons₂ (k₂, v₂)

theorem eraseKey_of_lookup_none {α : Type} {k : String} {m : List (String × α)}
    (h : lookupKey k m = none) : eraseKey k m = m := by
  induction m with
  | nil => simp [eraseKey]
  | cons hd rest ih =>
      obtain ⟨k₂, v₂⟩ := hd
      by_cases hk : k₂ = k
      · simp [lookupKey, hk] at h
      · simp [lookupKey, hk] at h
        simp [eraseKey, hk, ih h]

theorem entrySum_eraseKey {k : String} {e : CacheEntry}
    {m : List (String × CacheEntry)} (h : lookupKey k m = some e) :
    entrySum (eraseKey k m) = entrySum m - e.size_mb := by
  induction m with
  | nil => simp [lookupKey] at h
  | cons hd rest ih =>
      obtain ⟨k₂, v₂⟩ := hd
      by_cases hk : k₂ = k
      · simp [lookupKey, hk] at h
        subst h
        simp [eraseKey, hk, entrySum]
      · simp [lookupKey, hk] at h
        simp [eraseKey, hk, entrySum] at ih ⊢
        rw [ih h]; ring

theorem entrySum_insertOrReplace_none {k : String} {v : CacheEntry}
    {m : List (String × CacheEntry)} (h : lookupKey k m = none) :
    entrySum (insertOrReplace k v m) = entrySum m + v.size_mb := by
  induction m with
  | nil => simp [insertOrReplace, entrySum]
  | cons hd rest ih =>
      obtain ⟨k₂, v₂⟩ := hd
      by_cases hk : k₂ = k
      · simp [lookupKey, hk] at h
      · simp [lookupKey, hk] at h
        simp [insertOrReplace, hk, entrySum] at ih ⊢
        rw [ih h]; ring

theorem entrySum_insertOrReplace_some {k : String} {v old : CacheEntry}
    {m : List (String × CacheEntry)} (h : lookupKey k m = some old) :
    entrySum (insertOrReplace k v m) = entrySum m - old.size_mb + v.size_mb := by
  induction m with
  | nil => simp [lookupKey] at h
  | cons hd rest ih =>
      obtain ⟨k₂, v₂⟩ := hd
      by_cases hk : k₂ = k
      · simp [lookupKey, hk] at h
        subst h
        simp [insertOrReplace, hk, entrySum]; ring
      · simp [lookupKey, hk] at h
        simp [insertOrReplace, hk, entrySum] at ih ⊢
        rw [ih h]; ring

theorem lookupKey_none_not_mem {α : Type} {k : String} {m : List (String × α)}
    (h : lookupKey k m = none) : k ∉ m.map Prod.fst := by
  induction m with
  | nil => simp
  | cons hd rest ih =>
      obtain ⟨k₂, v₂⟩ := hd
      by_cases hk : k₂ = k
      · simp [lookupKey, hk] at h
      · simp [lookupKey, hk] at h
        intro hmem
        rcases List.mem_cons.mp hmem with h₁ | h₁
        · exact hk h₁.symm
        · exact ih h h₁

theorem keys_insertOrReplace_some {α : Type} {k : String} (v : α) {old : α}
    {m : List (String × α)} (h : lookupKey k m = some old) :
    (insertOrReplace k v m).map Prod.fst = m.map Prod.fst := by
  induction m with
  | nil => simp [lookupKey] at h
  | cons hd rest ih =>
      obtain ⟨k₂, v₂⟩ := hd
      by_cases hk : k₂ = k
      · simp [insertOrReplace, hk]
      · simp [lookupKey, hk] at h
        simp [insertOrReplace, hk, ih h]

theorem keys_insertOrReplace_none {α : Type} {k : String} (v : α)
    {m : List (String × α)} (h : lookupKey k m = none) :
    (insertOrReplace k v m).map Prod.fst = m.map Prod.fst ++ [k] := by
  induction m with
  | nil => simp [insertOrReplace]
  | cons hd rest ih =>
      obtain ⟨k₂, v₂⟩ := hd
      by_cases hk : k₂ = k
      · simp [lookupKey, hk] at h
      · simp [lookupKey, hk] at h
        simp [insertOrReplace, hk, ih h]

theorem keysNodup_insertOrReplace {α : Type} {k : String} (v : α)
    {m : List (String × α)} (h : keysNodup m) :
    keysNodup (insertOrReplace k v m) := by
  unfold keysNodup at h ⊢
  cases hlk : lookupKey k m with
  | some old => rw [keys_insertOrReplace_some v hlk]; exact h
  | none =>
      rw [keys_insertOrReplace_none v hlk]
      rw [List.nodup_append]
      exact ⟨h, List.nodup_singleton k,
        fun a ha hb => (List.mem_singleton.mp hb ▸ lookupKey_none_not_mem hlk)
          (List.mem_singleton.mp hb ▸ ha)⟩

theorem keysNodup_eraseKey {α : Type} {k : String} {m : List (String × α)}
    (h : keysNodup m) : keysNodup (eraseKey k m) :=
  List.Nodup.sublist ((eraseKey_sublist k m).map Prod.fst) h

theorem sizesNonneg_eraseKey {k : String} {m : List (String × CacheEntry)}
    (h : sizesNonneg m) : sizesNonneg (eraseKey k m) :=
  fun p hp => h p ((eraseKey_sublist k m).mem hp)

theorem lookupKey_of_nodup_mem {α : Type} {k : String} {v : α}
    {m : List (String × α)} (hnd : keysNodup m) (hmem : (k, v) ∈ m) :
    lookupKey k m = some v := by
  induction m with
  | nil => simp at hmem
  | cons hd rest ih =>
      obtain ⟨k₂, v₂⟩ := hd
      unfold keysNodup at hnd
      simp only [List.map_cons, List.nodup_cons] at hnd
      rcases List.mem_cons.mp hmem with h₁ | h₁
      · obtain ⟨h₂, h₃⟩ := Prod.mk.injEq .. ▸ h₁
        simp [lookupKey, h₂.symm, h₃]
      · by_cases hk : k₂ = k
        · subst hk
          exact absurd (by simpa using List.mem_map_of_mem Prod.fst h₁) hnd.1
        · simp [lookupKey, hk]
          exact ih hnd.2 h₁

theorem perm_cons_eraseKey {k : String} {e : CacheEntry}
    {m : List (String × CacheEntry)} (hnd : keysNodup m) (hmem : (k, e) ∈ m) :
    m.Perm ((k, e) :: eraseKey k m) := by
  induction m with
  | nil => cases hmem
  | cons hd rest ih =>
      obtain ⟨k₂, v₂⟩ := hd
      unfold keysNodup at hnd
      simp only [List.map_cons, List.nodup_cons] at hnd
      by_cases hk : k₂ = k
      · subst hk
        have hv : v₂ = e := by
          rcases List.mem_cons.mp hmem with h₁ | h₁
          · exact (Prod.mk.injEq .. ▸ h₁.symm).2
          · exact absurd (by simpa using List.mem_map_of_mem Prod.fst h₁) hnd.1
        subst hv
        simp [eraseKey]
      · have hmem₂ : (k, e) ∈ rest := by
          rcases List.mem_cons.mp hmem with h₁ | h₁
          · exact absurd (Prod.mk.injEq .. ▸ h₁.symm).1 hk
          · exact h₁
        have hrest := ih hnd.2 hmem₂
        have hstep : eraseKey k ((k₂, v₂) :: rest) = (k₂, v₂) :: eraseKey k rest := by
          simp [eraseKey, hk]
        rw [hstep]
        exact (hrest.cons (k₂, v₂)).trans (List.Perm.swap (k, e) (k₂, v₂) _)

theorem entrySum_perm {m₁ m₂ : List (String × CacheEntry)} (h : m₁.Perm m₂) :
    entrySum m₁ = entrySum m₂ :=
  List.Perm.sum_eq (h.map _)

theorem insertByTs_perm (x : String × CacheEntry)
    (l : List (String × CacheEntry)) : (insertByTs x l).Perm (x :: l) := by
  induction l with
  | nil => simp [insertByTs]
  | cons y ys ih =>
      by_cases h : y.2.timestamp < x.2.timestamp
      · simp only [insertByTs, if_pos h]
        exact (ih.cons y).trans (List.Perm.swap x y ys)
      · simp [insertByTs, if_neg h]

theorem sortByTs_perm (m : List (String × CacheEntry)) :
    (sortByTs m).Perm m := by
  induction m with
  | nil => simp [sortByTs]
  | cons hd rest ih =>
      unfold sortByTs at ih ⊢
      simpa using (insertByTs_perm hd (rest.foldr insertByTs [])).trans (ih.cons hd)

/-! ## C9: default streaming fallback -/

theorem streamChunks_flatten (l : Bytes) : (streamChunks l).flatten = l := by
  induction l using streamChunks.induct with
  | case1 => simp [streamChunks]
  | case2 hd tl ih =>
      rw [streamChunks]
      rw [List.flatten_cons, ih, List.take_append_drop]

theorem streamChunks_mem_length {l c : Bytes} (h : c ∈ streamChunks l) :
    c.length ≤ 4096 := by
  induction l using streamChunks.induct with
  | case1 => simp [streamChunks] at h
  | case2 hd tl ih =>
      rw [streamChunks] at h
      rcases List.mem_cons.mp h with h₁ | h₁
      · subst h₁
        simp [Nat.min_le_left 4096 (hd :: tl).length]
      · exact ih h₁

theorem streamChunks_nil : streamChunks [] = [] := by
  rw [streamChunks]

theorem streamChunks_of_small {l : Bytes} (hne : l ≠ [])
    (hlen : l.length ≤ 4096) : streamChunks l = [l] := by
  match l, hne with
  | a :: t, _ =>
      rw [streamChunks, List.take_of_length_le hlen,
        List.drop_eq_nil_of_le hlen, streamChunks_nil]

/-- C9: for every finite byte buffer, the default streaming fallback
(`BaseTTSBackend.stream_speech`, src/backends/__init__.py lines 36-44)
yields a finite list of chunks, each of length at most 4096 bytes, whose
in-order concatenation is exactly the original buffer. -/
theorem c9_stream_chunking (l : Bytes) (c : Bytes) (hc : c ∈ streamChunks l) :
    c.length ≤ 4096 ∧ (streamChunks l).flatten = l :=
  ⟨streamChunks_mem_length hc, streamChunks_flatten l⟩

theorem c9_witness :
    ([0, 1, 2] : Bytes).length ≤ 4096 ∧
      (streamChunks [0, 1, 2]).flatten = [0, 1, 2] :=
  c9_stream_chunking [0, 1, 2] [0, 1, 2]
    (by rw [streamChunks_of_small (by decide) (by decide)]; exact List.mem_singleton.mpr rfl)

/-! ## C3: cache-key derivation -/

theorem toLE_length (w n : Nat) : (toLE w n).length = w := by
  simp [toLE]

theorem byteHex_flatMap_length (l : Bytes) :
    (l.flatMap byteHex).length = 2 * l.length := by
  induction l with
  | nil => simp
  | cons a t ih =>
      simp only [List.flatMap_cons, List.length_append, ih, byteHex,
        List.length_cons, List.length_nil, List.length_cons]
      omega

theorem md5hex_length (msg : Bytes) : (md5hex msg).length = 32 := by
  unfold md5hex md5Digest
  simp only [String.length, byteHex_flatMap_length, List.length_append,
    toLE_length]

/-- C3 (amended): the derived cache key is a function of the canonicalized
`key_data` string alone — identical parameter tuples always yield equal
keys, and any two parameter tuples whose `key_data` strings agree (even if
the tuples differ, which the underscore-joined encoding allows) yield equal
keys; every key has the fixed length 32. -/
theorem c3_cache_key (t₁ v₁ b₁ : String) (q₁ : Option String)
    (t₂ v₂ b₂ : String) (q₂ : Option String)
    (h : keyData t₁ v₁ b₁ q₁ = keyData t₂ v₂ b₂ q₂) :
    generate_cache_key t₁ v₁ b₁ q₁ = generate_cache_key t₂ v₂ b₂ q₂ ∧
      (generate_cache_key t₁ v₁ b₁ q₁).length = 32 := by
  constructor
  · unfold generate_cache_key
    rw [h]
  · exact md5hex_length _

theorem c3_witness :
    keyData "a_b" "c" "auto" none = keyData "a" "b_c" "auto" none ∧
      (generate_cache_key "a_b" "c" "auto" none =
          generate_cache_key "a" "b_c" "auto" none ∧
        (generate_cache_key "a_b" "c" "auto" none).length = 32) :=
  ⟨by decide,
   c3_cache_key "a_b" "c" "auto" none "a" "b_c" "auto" none (by decide)⟩

/-- C3 counterexample: two requests whose parameter tuples differ in the
`text` and `voice` fields nevertheless derive the same cache key, because
`key_data` joins the fields with an ambiguous `_` separator before
hashing. -/
theorem c3_counterexample :
    generate_cache_key "a_b" "c" "auto" none =
        generate_cache_key "a" "b_c" "auto" none ∧
      ¬("a_b" = "a" ∧ "c" = "b_c") := by
  constructor
  · unfold generate_cache_key
    have h : keyData "a_b" "c" "auto" none = keyData "a" "b_c" "auto" none := by
      decide
    rw [h]
  · decide

/-! ## C7: memory-tier TTL semantics of `get` -/

/-- C7: for a key present in the memory tier, `_get_memory` returns the
entry's payload as a hit when `now - insertion_timestamp < ttl`, and when
the age is at least `ttl` it deletes the entry and returns a miss. -/
theorem c7_get_ttl (ttl : ℚ) (s : CacheState) (key : String) (now : ℚ)
    (entry : CacheEntry) (h : lookupKey key s.memory_cache = some entry) :
    (now - entry.timestamp < ttl →
      getMemory ttl s key now =
        (some entry.data, { s with hits := s.hits + 1 })) ∧
    (ttl ≤ now - entry.timestamp →
      getMemory ttl s key now =
        (none, { s with memory_cache := eraseKey key s.memory_cache })) := by
  unfold getMemory
  rw [h]
  dsimp only
  constructor
  · intro hlt
    rw [if_pos hlt]
  · intro hge
    rw [if_neg (not_lt.mpr hge)]

theorem c7_witness :
    getMemory 3600 tinyState "a" 1 =
        (some "aa", { tinyState with hits := tinyState.hits + 1 }) ∧
      getMemory 3600 tinyState "a" 5000 =
        (none,
          { tinyState with
            memory_cache := eraseKey "a" tinyState.memory_cache }) :=
  ⟨(c7_get_ttl 3600 tinyState "a" 1
      { data := "aa", timestamp := 0, size_mb := 2 / 1048576 } rfl).1
      (by norm_num),
   (c7_get_ttl 3600 tinyState "a" 5000
      { data := "aa", timestamp := 0, size_mb := 2 / 1048576 } rfl).2
      (by norm_num)⟩

/-! ## C2: explicitly named backend -/

/-- C2 (amended): a named backend that is registered and available is used;
a named backend that is unavailable or unregistered does NOT fail the
request — `_select_backend` silently falls through to the quality-derived
auto priority order. -/
theorem c2_explicit_backend (settings : Settings)
    (bks : List (String × Backend)) (p : String) (q : Option String) :
    (∀ b : Backend, lookupKey p bks = some b → b.available = true →
      selectBackend settings bks (some p) q = some b) ∧
    (∀ b : Backend, lookupKey p bks = some b → b.available = false →
      selectBackend settings bks (some p) q =
        firstAvailable bks (priorityOrder settings q)) ∧
    (lookupKey p bks = none →
      selectBackend settings bks (some p) q =
        firstAvailable bks (priorityOrder settings q)) := by
  refine ⟨?_, ?_, ?_⟩
  · intro b hlk hav
    simp [selectBackend, hlk, hav]
  · intro b hlk hav
    simp [selectBackend, hlk, hav]
  · intro hlk
    simp [selectBackend, hlk]

theorem c2_witness :
    selectBackend demoSettings mixedRegistry (some "piper") none =
        some { name := "PiperTTSBackend", available := true,
               synth := fun _ _ => Except.ok [] } ∧
      selectBackend demoSettings mixedRegistry (some "edge") none =
        firstAvailable mixedRegistry (priorityOrder demoSettings none) :=
  ⟨(c2_explicit_backend demoSettings mixedRegistry "piper" none).1 _ rfl rfl,
   (c2_explicit_backend demoSettings mixedRegistry "edge" none).2.1 _ rfl rfl⟩

/-- C2 counterexample: with `"edge"` registered but unavailable and
`"piper"` registered and available, a request that names `"edge"` does not
fail — `_select_backend` silently returns the Piper backend instead. -/
theorem c2_counterexample :
    (selectBackend demoSettings mixedRegistry (some "edge") none).map
        Backend.name = some "PiperTTSBackend" ∧
      "PiperTTSBackend" ≠ "EdgeTTSBackend" :=
  ⟨rfl, by decide⟩

/-! ## C5: quality-derived auto selection -/

theorem firstAvailable_eq_specSelect (bks : List (String × Backend))
    (names : List String) : firstAvailable bks names = specSelect bks names := by
  induction names with
  | nil => simp [firstAvailable, specSelect]
  | cons n rest ih =>
      cases hlk : lookupKey n bks with
      | some b =>
          by_cases hav : b.available
          · simp [firstAvailable, specSelect, hlk, hav]
          · simp only [firstAvailable, specSelect, hlk, hav, if_false] at ih ⊢
            rw [List.find?_cons_of_neg _ (by simp [hlk, hav])]
            exact ih
      | none =>
          simp only [firstAvailable, specSelect, hlk] at ih ⊢
          rw [List.find?_cons_of_neg _ (by simp [hlk])]
          exact ih

/-- C5: with no named backend, the priority order is `["xtts", "edge",
"piper"]` for quality `high`, `["edge", "piper", "xtts"]` for `low`/`fast`,
and `primary_backend :: fallback_backends` otherwise; selection returns the
first name in that order that is registered with an available backend; and
when none qualifies, a (cache-missing) `generate_speech` call raises the
no-backend error. -/
theorem c5_auto_selection (settings : Settings)
    (bks : List (String × Backend)) (quality : Option String)
    (st : ManagerState) (text : String) (voice : Option String) (now : ℚ) :
    priorityOrder settings (some "high") = ["xtts", "edge", "piper"] ∧
    priorityOrder settings (some "low") = ["edge", "piper", "xtts"] ∧
    priorityOrder settings (some "fast") = ["edge", "piper", "xtts"] ∧
    (quality ≠ some "high" → quality ≠ some "low" → quality ≠ some "fast" →
      priorityOrder settings quality =
        settings.primary_backend :: settings.fallback_backends) ∧
    selectBackend settings bks none quality =
      specSelect bks (priorityOrder settings quality) ∧
    ((cacheGet settings.cache st.cache
        (generate_cache_key text (voice.getD "default") "auto" quality)
        now).1.getD "" = "" →
      selectBackend settings st.backends none quality = none →
      (generate settings st text voice none quality now).1 =
          Except.error GenError.noBackend ∧
        (generate settings st text voice none quality now).2.stats.total_requests =
          st.stats.total_requests + 1) := by
  refine ⟨by simp [priorityOrder], by simp [priorityOrder],
    by simp [priorityOrder], ?_, ?_, ?_⟩
  · intro h₁ h₂ h₃
    simp [priorityOrder, h₁, h₂, h₃]
  · simp only [selectBackend]
    exact firstAvailable_eq_specSelect bks _
  · intro hmiss hsel
    simp only [selectBackend] at hsel
    by_cases hen : settings.cache.enabled
    · simp only [generate, hen, if_true, Option.getD_none] at hmiss ⊢
      cases hc : (cacheGet settings.cache st.cache
          (generate_cache_key text (voice.getD "default") "auto" quality)
          now).1 with
      | none => simp [hc, synthesizePath, selectBackend, hsel]
      | some a =>
          have ha : a = "" := by
            simpa [hc] using hmiss
          subst ha
          simp [hc, synthesizePath, selectBackend, hsel]
    · simp [generate, hen, synthesizePath, selectBackend, hsel]

theorem c5_witness :
    priorityOrder demoSettings (some "high") = ["xtts", "edge", "piper"] ∧
      priorityOrder demoSettings none =
        demoSettings.primary_backend :: demoSettings.fallback_backends ∧
      selectBackend demoSettings noneAvailRegistry none none =
        specSelect noneAvailRegistry (priorityOrder demoSettings none) ∧
      (generate demoSettings noneAvailState "x" none none none 0).1 =
        Except.error GenError.noBackend := by
  obtain ⟨h₁, -, -, h₄, h₅, h₆⟩ :=
    c5_auto_selection demoSettings noneAvailRegistry none noneAvailState
      "x" none 0
  exact ⟨h₁, h₄ (by decide) (by decide) (by decide), h₅, (h₆ rfl rfl).1⟩

/-! ## C6: size-triggered eviction -/

theorem evictLoop_size_le (target : ℚ) (ht : 0 ≤ target)
    (P : List (String × CacheEntry)) :
    ∀ (s : CacheState), s.memory_cache.Perm P → keysNodup s.memory_cache →
      s.size_mb = entrySum s.memory_cache →
      (evictLoop target P s).size_mb ≤ target := by
  induction P with
  | nil =>
      intro s hperm _ hsum
      have hmem : s.memory_cache = [] := hperm.eq_nil
      rw [evictLoop, hsum, hmem]
      simpa [entrySum] using ht
  | cons hd rest ih =>
      intro s hperm hnd hsum
      obtain ⟨k, e⟩ := hd
      rw [evictLoop]
      by_cases hle : s.size_mb ≤ target
      · rw [if_pos hle]; exact hle
      · rw [if_neg hle]
        have hmem : (k, e) ∈ s.memory_cache :=
          hperm.mem_iff.mpr (List.mem_cons_self _ _)
        have hlk : lookupKey k s.memory_cache = some e :=
          lookupKey_of_nodup_mem hnd hmem
        apply ih
        · show (eraseKey k s.memory_cache).Perm rest
          exact ((hperm.symm.trans (perm_cons_eraseKey hnd hmem)).cons_inv).symm
        · exact keysNodup_eraseKey hnd
        · show s.size_mb - e.size_mb = entrySum (eraseKey k s.memory_cache)
          rw [entrySum_eraseKey hlk, hsum]

theorem evictLoop_take (target : ℚ) (P : List (String × CacheEntry)) :
    ∀ (s : CacheState), ∃ n,
      (evictLoop target P s).memory_cache =
        dropKeys ((P.take n).map Prod.fst) s.memory_cache := by
  induction P with
  | nil =>
      intro s
      exact ⟨0, by rw [evictLoop]; simp [dropKeys]⟩
  | cons hd rest ih =>
      intro s
      obtain ⟨k, e⟩ := hd
      by_cases hle : s.size_mb ≤ target
      · exact ⟨0, by rw [evictLoop, if_pos hle]; simp [dropKeys]⟩
      · obtain ⟨n, hn⟩ := ih
          { s with
            memory_cache := eraseKey k s.memory_cache,
            size_mb := s.size_mb - e.size_mb }
        refine ⟨n + 1, ?_⟩
        rw [evictLoop, if_neg hle, hn]
        simp [dropKeys, List.take_succ_cons]

/-- C6 (amended): on a consistent state (tracked size equal to the sum of
recorded entry sizes), a `_set_memory` whose tracked size plus payload size
would exceed the budget first evicts — removing a timestamp-sorted prefix
of the entries — until the tracked size is at or below 80% of the budget,
and then inserts the new entry.  (On a drifted state the 80% bound can be
unreachable; see the counterexample.) -/
theorem c6_eviction (maxMb : ℚ) (hmax : 0 ≤ maxMb) (s : CacheState)
    (hwf : cacheWF s) (key data : String) (now : ℚ)
    (hover : s.size_mb + dataSizeMb data > maxMb) :
    setMemory maxMb s key data now =
        insertEntry (evictMemory maxMb s) key data now ∧
      (evictMemory maxMb s).size_mb ≤ maxMb * 0.8 ∧
      ∃ n, (evictMemory maxMb s).memory_cache =
        dropKeys (((sortByTs s.memory_cache).take n).map Prod.fst)
          s.memory_cache := by
  obtain ⟨hnd, hnn, hsum⟩ := hwf
  refine ⟨?_, ?_, ?_⟩
  · rw [setMemory]
    simp [hover]
  · unfold evictMemory
    by_cases hne : s.memory_cache.isEmpty
    · rw [if_pos hne]
      have hnil : s.memory_cache = [] := List.isEmpty_iff.mp hne
      rw [← hsum, hnil]
      simpa [entrySum] using mul_nonneg hmax (by norm_num)
    · rw [if_neg hne]
      exact evictLoop_size_le (maxMb * 0.8) (mul_nonneg hmax (by norm_num))
        (sortByTs s.memory_cache) s (sortByTs_perm s.memory_cache).symm hnd
        hsum.symm
  · unfold evictMemory
    by_cases hne : s.memory_cache.isEmpty
    · rw [if_pos hne]
      exact ⟨0, by simp [dropKeys]⟩
    · rw [if_neg hne]
      exact evictLoop_take (maxMb * 0.8) (sortByTs s.memory_cache) s

theorem dataSizeMb_aa : dataSizeMb "aa" = 2 / 1048576 := by
  norm_num [dataSizeMb, show ((utf8Bytes "aa").length = 2) from rfl]

theorem c6_witness :
    setMemory tinyMax tinyState "b" "aa" 0 =
        insertEntry (evictMemory tinyMax tinyState) "b" "aa" 0 ∧
      (evictMemory tinyMax tinyState).size_mb ≤ tinyMax * 0.8 := by
  obtain ⟨h₁, h₂, -⟩ :=
    c6_eviction tinyMax (by norm_num [tinyMax]) tinyState
      (by
        refine ⟨by decide, ?_, ?_⟩
        · intro p hp
          simp only [tinyState, List.mem_singleton] at hp
          rw [hp]
          norm_num
        · norm_num [entrySum, tinyState])
      "b" "aa" 0 (by rw [dataSizeMb_aa]; norm_num [tinyState, tinyMax])
  exact ⟨h₁, h₂⟩

/-- C6 counterexample: on a reachable drifted state (tracked size inflated
by lazy-expiry deletions that never adjust it), an overflowing `set`
triggers eviction, the eviction loop exhausts every entry, and the tracked
size still ends strictly above the 80% target. -/
theorem c6_counterexample :
    driftState.size_mb + dataSizeMb "aa" > tinyMax ∧
      driftState.memory_cache ≠ [] ∧
      ¬((evictMemory tinyMax driftState).size_mb ≤ tinyMax * 0.8) := by
  have hdrift : driftState =
      { memory_cache := [("c", { data := "aa", timestamp := 2,
                                 size_mb := 2 / 1048576 })],
        hits := 0, misses := 0, size_mb := 6 / 1048576 } := by
    norm_num [driftState, setMemory, getMemory, insertEntry, insertOrReplace,
      evictMemory, evictLoop, sortByTs, insertByTs, eraseKey, lookupKey,
      dropKeys, initialCache, tinyMax, dataSizeMb_aa]
  refine ⟨?_, ?_, ?_⟩
  · rw [hdrift, dataSizeMb_aa]
    norm_num [tinyMax]
  · rw [hdrift]
    simp
  · rw [hdrift]
    norm_num [evictMemory, evictLoop, sortByTs, insertByTs, eraseKey,
      lookupKey, tinyMax]

/-! ## C10: the tracked-size invariant -/

theorem dataSizeMb_nonneg (d : String) : 0 ≤ dataSizeMb d := by
  unfold dataSizeMb
  positivity

theorem mem_insertOrReplace {α : Type} {p : String × α} {k : String} {v : α}
    {m : List (String × α)} (h : p ∈ insertOrReplace k v m) :
    p = (k, v) ∨ p ∈ m := by
  induction m with
  | nil => simpa [insertOrReplace] using h
  | cons hd rest ih =>
      obtain ⟨k₂, v₂⟩ := hd
      by_cases hk : k₂ = k
      · simp only [insertOrReplace, hk, if_pos rfl] at h
        rcases List.mem_cons.mp h with h₁ | h₁
        · exact Or.inl h₁
        · exact Or.inr (List.mem_cons_of_mem _ h₁)
      · simp only [insertOrReplace, hk, if_false] at h
        rcases List.mem_cons.mp h with h₁ | h₁
        · exact Or.inr (h₁ ▸ List.mem_cons_self _ _)
        · rcases ih h₁ with h₂ | h₂
          · exact Or.inl h₂
          · exact Or.inr (List.mem_cons_of_mem _ h₂)

theorem mem_eraseKey_of_keyne {α : Type} {p : String × α} {k : String}
    {m : List (String × α)} (hne : p.1 ≠ k) (hp : p ∈ m) :
    p ∈ eraseKey k m := by
  induction m with
  | nil => cases hp
  | cons hd rest ih =>
      obtain ⟨k₂, v₂⟩ := hd
      by_cases hk : k₂ = k
      · simp only [eraseKey, hk, if_pos rfl]
        rcases List.mem_cons.mp hp with h₁ | h₁
        · exact absurd (congrArg Prod.fst h₁) (by simpa [hk] using hne)
        · exact h₁
      · simp only [eraseKey, hk, if_false]
        rcases List.mem_cons.mp hp with h₁ | h₁
        · exact h₁ ▸ List.mem_cons_self _ _
        · exact List.mem_cons_of_mem _ (ih h₁)

theorem sizeOvercount_popKey {s : CacheState} (h : sizeOvercount s)
    (k : String) : sizeOvercount (popKey s k) := by
  obtain ⟨hnd, hnn, hle⟩ := h
  unfold popKey
  cases hlk : lookupKey k s.memory_cache with
  | none => exact ⟨hnd, hnn, hle⟩
  | some e =>
      refine ⟨keysNodup_eraseKey hnd, sizesNonneg_eraseKey hnn, ?_⟩
      show entrySum (eraseKey k s.memory_cache) ≤ s.size_mb - e.size_mb
      rw [entrySum_eraseKey hlk]
      linarith

theorem sizeOvercount_getMemory {s : CacheState} (h : sizeOvercount s)
    (ttl : ℚ) (k : String) (now : ℚ) :
    sizeOvercount (getMemory ttl s k now).2 := by
  obtain ⟨hnd, hnn, hle⟩ := h
  unfold getMemory
  cases hlk : lookupKey k s.memory_cache with
  | none => exact ⟨hnd, hnn, hle⟩
  | some e =>
      dsimp only
      by_cases httl : now - e.timestamp < ttl
      · rw [if_pos httl]
        exact ⟨hnd, hnn, hle⟩
      · rw [if_neg httl]
        refine ⟨keysNodup_eraseKey hnd, sizesNonneg_eraseKey hnn, ?_⟩
        show entrySum (eraseKey k s.memory_cache) ≤ s.size_mb
        rw [entrySum_eraseKey hlk]
        have he : 0 ≤ e.size_mb := hnn _ (lookupKey_mem hlk)
        linarith

theorem sizeOvercount_insertEntry {s : CacheState} (h : sizeOvercount s)
    (k d : String) (now : ℚ) : sizeOvercount (insertEntry s k d now) := by
  obtain ⟨hnd, hnn, hle⟩ := h
  refine ⟨keysNodup_insertOrReplace _ hnd, ?_, ?_⟩
  · intro p hp
    rcases mem_insertOrReplace hp with h₁ | h₁
    · rw [h₁]
      exact dataSizeMb_nonneg d
    · exact hnn p h₁
  · show entrySum (insertOrReplace k ⟨d, now, dataSizeMb d⟩ s.memory_cache) ≤
      s.size_mb + dataSizeMb d
    cases hlk : lookupKey k s.memory_cache with
    | none =>
        rw [entrySum_insertOrReplace_none hlk]
        linarith
    | some old =>
        rw [entrySum_insertOrReplace_some hlk]
        have hold : 0 ≤ old.size_mb := hnn _ (lookupKey_mem hlk)
        dsimp only
        linarith

theorem sizeOvercount_evictLoop (target : ℚ)
    (P : List (String × CacheEntry)) :
    ∀ s : CacheState, sizeOvercount s → (∀ p ∈ P, p ∈ s.memory_cache) →
      (P.map Prod.fst).Nodup → sizeOvercount (evictLoop target P s) := by
  induction P with
  | nil =>
      intro s h _ _
      rw [evictLoop]
      exact h
  | cons hd rest ih =>
      intro s h hsub hnodP
      obtain ⟨k, e⟩ := hd
      rw [evictLoop]
      by_cases hle : s.size_mb ≤ target
      · rw [if_pos hle]
        exact h
      · rw [if_neg hle]
        obtain ⟨hnd, hnn, hsum⟩ := h
        have hmem : (k, e) ∈ s.memory_cache := hsub _ (List.mem_cons_self _ _)
        have hlk := lookupKey_of_nodup_mem hnd hmem
        simp only [List.map_cons, List.nodup_cons] at hnodP
        apply ih
        · refine ⟨keysNodup_eraseKey hnd, sizesNonneg_eraseKey hnn, ?_⟩
          show entrySum (eraseKey k s.memory_cache) ≤ s.size_mb - e.size_mb
          rw [entrySum_eraseKey hlk]
          linarith
        · intro p hp
          have hpm : p ∈ s.memory_cache := hsub _ (List.mem_cons_of_mem _ hp)
          have hkne : p.1 ≠ k :=
            fun hk => hnodP.1 (hk ▸ List.mem_map_of_mem Prod.fst hp)
          exact mem_eraseKey_of_keyne hkne hpm
        · exact hnodP.2

theorem sizeOvercount_evictMemory (maxMb : ℚ) {s : CacheState}
    (h : sizeOvercount s) : sizeOvercount (evictMemory maxMb s) := by
  unfold evictMemory
  by_cases hne : s.memory_cache.isEmpty
  · rw [if_pos hne]
    exact h
  · rw [if_neg hne]
    apply sizeOvercount_evictLoop _ _ _ h
    · intro p hp
      exact (sortByTs_perm s.memory_cache).mem_iff.mp hp
    · exact (((sortByTs_perm s.memory_cache).map Prod.fst).nodup_iff).mpr h.1

theorem sizeOvercount_setMemory (maxMb : ℚ) {s : CacheState}
    (h : sizeOvercount s) (k d : String) (now : ℚ) :
    sizeOvercount (setMemory maxMb s k d now) := by
  unfold setMemory
  by_cases hover : s.size_mb + dataSizeMb d > maxMb
  · rw [if_pos hover]
    exact sizeOvercount_insertEntry (sizeOvercount_evictMemory maxMb h) k d now
  · rw [if_neg hover]
    exact sizeOvercount_insertEntry h k d now

theorem sizeOvercount_foldl_popKey (ks : List String) :
    ∀ s : CacheState, sizeOvercount s → sizeOvercount (ks.foldl popKey s) := by
  induction ks with
  | nil => intro s h; exact h
  | cons k rest ih =>
      intro s h
      exact ih _ (sizeOvercount_popKey h k)

theorem sizeOvercount_cleanupSweep (ttl : ℚ) {s : CacheState}
    (h : sizeOvercount s) (now : ℚ) :
    sizeOvercount (cleanupSweep ttl s now) :=
  sizeOvercount_foldl_popKey _ s h

theorem sizeOvercount_clearMemory (s : CacheState) :
    sizeOvercount (clearMemory s) := by
  refine ⟨by simp [keysNodup, clearMemory], ?_, by simp [entrySum, clearMemory]⟩
  intro p hp
  simp [clearMemory] at hp

theorem sizeOvercount_runOp (maxMb ttl : ℚ) {s : CacheState}
    (h : sizeOvercount s) (op : CacheOp) :
    sizeOvercount (runOp maxMb ttl s op) := by
  cases op with
  | set key data now => exact sizeOvercount_setMemory maxMb h key data now
  | get key now => exact sizeOvercount_getMemory h ttl key now
  | evict => exact sizeOvercount_evictMemory maxMb h
  | sweep now => exact sizeOvercount_cleanupSweep ttl h now
  | clear => exact sizeOvercount_clearMemory s

theorem sizeOvercount_runOps (maxMb ttl : ℚ) (ops : List CacheOp) :
    ∀ s : CacheState, sizeOvercount s →
      sizeOvercount (runOps maxMb ttl s ops) := by
  induction ops with
  | nil => intro s h; exact h
  | cons op rest ih =>
      intro s h
      exact ih _ (sizeOvercount_runOp maxMb ttl h op)

/-- C10 (amended): after any sequence of memory-tier operations from the
initial state, the tracked `cache_stats["size_mb"]` is at least the sum of
the `size_mb` fields of the entries present; it is not always equal — an
overwriting `set` and a lazy-expiry removal in `get` both leave the tracked
counter strictly above the sum (see the counterexample). -/
theorem c10_size_invariant (maxMb ttl : ℚ) (ops : List CacheOp) :
    entrySum (runOps maxMb ttl initialCache ops).memory_cache ≤
      (runOps maxMb ttl initialCache ops).size_mb :=
  (sizeOvercount_runOps maxMb ttl ops initialCache
    ⟨by simp [keysNodup, initialCache],
     by intro p hp; simp [initialCache] at hp,
     by simp [entrySum, initialCache]⟩).2.2

/-- C10 counterexample: two `set` calls on the same key from the initial
state leave the tracked size counter at twice the size of the single entry
present — the overwrite adds the new payload size without subtracting the
overwritten entry's. -/
theorem c10_counterexample :
    ¬((runOps 1000 10 initialCache
          [CacheOp.set "k" "aa" 0, CacheOp.set "k" "aa" 0]).size_mb =
        entrySum (runOps 1000 10 initialCache
          [CacheOp.set "k" "aa" 0, CacheOp.set "k" "aa" 0]).memory_cache) := by
  norm_num [runOps, runOp, setMemory, insertEntry, insertOrReplace,
    evictMemory, lookupKey, initialCache, entrySum, dataSizeMb_aa]

/-! ## C8: counter consistency on all paths -/

theorem synthesizePath_stats (settings : Settings) (st : ManagerState)
    (text : String) (voice backend quality : Option String) (now : ℚ)
    (key : String) :
    ((synthesizePath settings st text voice backend quality now key).2.stats.total_requests =
        st.stats.total_requests ∧
      (synthesizePath settings st text voice backend quality now key).2.stats.cache_hits =
        st.stats.cache_hits) ∧
    (∀ e, (synthesizePath settings st text voice backend quality now key).1 =
        Except.error e →
      (synthesizePath settings st text voice backend quality now key).2.stats.backend_usage =
        st.stats.backend_usage) ∧
    (∀ p m, (synthesizePath settings st text voice backend quality now key).1 =
        Except.ok (p, m) →
      m.cached = false ∧
      ∃ b : Backend, selectBackend settings st.backends backend quality = some b ∧
        m.backend = b.name ∧
        (synthesizePath settings st text voice backend quality now key).2.stats.backend_usage =
          bumpUsage st.stats.backend_usage b.name) := by
  unfold synthesizePath
  cases hsel : selectBackend settings st.backends backend quality with
  | none =>
      dsimp only
      refine ⟨⟨rfl, rfl⟩, fun e _ => rfl, fun p m hok => ?_⟩
      simp at hok
  | some b =>
      dsimp only
      cases hsy : b.synth text voice with
      | error e =>
          dsimp only
          refine ⟨⟨rfl, rfl⟩, fun e₂ _ => rfl, fun p m hok => ?_⟩
          simp at hok
      | ok bytes =>
          dsimp only
          by_cases hen : settings.cache.enabled
          · simp only [hen, if_true]
            refine ⟨⟨by first | rfl | trivial, by first | rfl | trivial⟩,
              fun e₂ he => ?_, fun p m hok => ?_⟩
            · simp at he
            · simp only [Except.ok.injEq, Prod.mk.injEq] at hok
              exact ⟨hok.2 ▸ rfl, b, rfl, hok.2 ▸ rfl, rfl⟩
          · simp only [hen, if_false]
            refine ⟨⟨rfl, rfl⟩, fun e₂ he => ?_, fun p m hok => ?_⟩
            · simp at he
            · simp only [Except.ok.injEq, Prod.mk.injEq] at hok
              exact ⟨hok.2 ▸ rfl, b, rfl, hok.2 ▸ rfl, rfl⟩

/-- C8: every `generate_speech` call increments `total_requests` exactly
once, including failing calls; on any failure neither the per-backend usage
counters nor the cache-hit counter move; on a cache hit only the cache-hit
counter moves; on a synthesized success only the selected backend's usage
counter moves. -/
theorem c8_stats_counters (settings : Settings) (st : ManagerState)
    (text : String) (voice backend quality : Option String) (now : ℚ) :
    (generate settings st text voice backend quality now).2.stats.total_requests =
        st.stats.total_requests + 1 ∧
    (∀ e, (generate settings st text voice backend quality now).1 =
        Except.error e →
      (generate settings st text voice backend quality now).2.stats.backend_usage =
          st.stats.backend_usage ∧
        (generate settings st text voice backend quality now).2.stats.cache_hits =
          st.stats.cache_hits) ∧
    (∀ p m, (generate settings st text voice backend quality now).1 =
        Except.ok (p, m) → m.cached = true →
      (generate settings st text voice backend quality now).2.stats.cache_hits =
          st.stats.cache_hits + 1 ∧
        (generate settings st text voice backend quality now).2.stats.backend_usage =
          st.stats.backend_usage) ∧
    (∀ p m, (generate settings st text voice backend quality now).1 =
        Except.ok (p, m) → m.cached = false →
      (generate settings st text voice backend quality now).2.stats.cache_hits =
          st.stats.cache_hits ∧
      ∃ b : Backend, selectBackend settings st.backends backend quality = some b ∧
        (generate settings st text voice backend quality now).2.stats.backend_usage =
          bumpUsage st.stats.backend_usage b.name) := by
  simp only [generate]
  cases hres : (if settings.cache.enabled then
      cacheGet settings.cache st.cache
        (generate_cache_key text (voice.getD "default") (backend.getD "auto")
          quality) now
    else (none, st.cache)).1 with
  | none =>
      simp only [hres]
      obtain ⟨⟨h₁, h₂⟩, h₃, h₄⟩ := synthesizePath_stats settings
        { st with
          stats := { st.stats with
            total_requests := st.stats.total_requests + 1 },
          cache := (if settings.cache.enabled then
              cacheGet settings.cache st.cache
                (generate_cache_key text (voice.getD "default")
                  (backend.getD "auto") quality) now
            else (none, st.cache)).2 }
        text voice backend quality now
        (generate_cache_key text (voice.getD "default") (backend.getD "auto")
          quality)
      refine ⟨h₁, fun e he => ⟨h₃ e he, h₂⟩, fun p m hok hm => ?_, fun p m hok hm => ?_⟩
      · exact absurd ((h₄ p m hok).1.symm.trans hm) (by simp)
      · obtain ⟨-, b, hb, -, hu⟩ := h₄ p m hok
        exact ⟨h₂, b, hb, hu⟩
  | some a =>
      by_cases ha : a = ""
      · subst ha
        simp only [hres, if_pos rfl]
        obtain ⟨⟨h₁, h₂⟩, h₃, h₄⟩ := synthesizePath_stats settings
          { st with
            stats := { st.stats with
              total_requests := st.stats.total_requests + 1 },
            cache := (if settings.cache.enabled then
                cacheGet settings.cache st.cache
                  (generate_cache_key text (voice.getD "default")
                    (backend.getD "auto") quality) now
              else (none, st.cache)).2 }
          text voice backend quality now
          (generate_cache_key text (voice.getD "default") (backend.getD "auto")
            quality)
        refine ⟨h₁, fun e he => ⟨h₃ e he, h₂⟩, fun p m hok hm => ?_,
          fun p m hok hm => ?_⟩
        · exact absurd ((h₄ p m hok).1.symm.trans hm) (by simp)
        · obtain ⟨-, b, hb, -, hu⟩ := h₄ p m hok
          exact ⟨h₂, b, hb, hu⟩
      · simp only [hres, if_neg ha]
        refine ⟨by first | rfl | trivial, fun e he => ?_,
          fun p m hok hm => ⟨by first | rfl | trivial, by first | rfl | trivial⟩,
          fun p m hok hm => ?_⟩
        · simp at he
        · simp only [Except.ok.injEq, Prod.mk.injEq] at hok
          rw [← hok.2] at hm
          simp at hm

theorem c8_witness :
    (generate demoSettings noneAvailState "x" none none none 0).2.stats.total_requests =
        noneAvailState.stats.total_requests + 1 ∧
      (generate demoSettings noneAvailState "x" none none none 0).2.stats.backend_usage =
        noneAvailState.stats.backend_usage ∧
      (generate demoSettings noneAvailState "x" none none none 0).2.stats.cache_hits =
        noneAvailState.stats.cache_hits := by
  obtain ⟨h₁, h₂, -, -⟩ :=
    c8_stats_counters demoSettings noneAvailState "x" none none none 0
  obtain ⟨h₃, h₄⟩ := h₂ GenError.noBackend rfl
  exact ⟨h₁, h₃, h₄⟩

/-! ## C4: empty-after-trim text -/

theorem b64_nil : audio_to_base64 [] = "" := rfl

theorem pyStrip_space : pyStrip " " = "" := rfl

theorem dataSizeMb_nil : dataSizeMb "" = 0 := by
  norm_num [dataSizeMb, show ((utf8Bytes "").length = 0) from rfl]

/-- C4 (amended): `generate_speech` performs no empty-text validation — a
request whose text is empty after stripping proceeds through the cache
lookup and backend selection like any other, and the Edge backend then
returns a zero-length payload for it (without touching its engine), so the
call succeeds with an empty payload and the backend-invocation count
incremented. -/
theorem c4_empty_text (net : String → String → Except String Bytes)
    (text : String) (h : pyStrip text = "") (voice : Option String) (now : ℚ) :
    edgeSynth net text voice = Except.ok [] ∧
      (generate demoSettings (edgeOnlyState net) text voice none none now).1 =
        Except.ok ("", ⟨false, "EdgeTTSBackend"⟩) ∧
      (generate demoSettings (edgeOnlyState net) text voice none none now).2.synth_calls =
        (edgeOnlyState net).synth_calls + 1 := by
  refine ⟨by simp [edgeSynth, h], ?_, ?_⟩
  · simp [generate, synthesizePath, cacheGet, getMemory, lookupKey,
      selectBackend, priorityOrder, firstAvailable, edgeOnlyState,
      edgeBackend, edgeSynth, demoSettings, initialCache, h, b64_nil]
  · simp [generate, synthesizePath, cacheGet, getMemory, lookupKey,
      selectBackend, priorityOrder, firstAvailable, edgeOnlyState,
      edgeBackend, edgeSynth, demoSettings, initialCache, h, b64_nil]

theorem c4_witness :
    pyStrip " " = "" ∧
      (edgeSynth demoNet " " none = Except.ok [] ∧
        (generate demoSettings (edgeOnlyState demoNet) " " none none none 0).1 =
          Except.ok ("", ⟨false, "EdgeTTSBackend"⟩) ∧
        (generate demoSettings (edgeOnlyState demoNet) " " none none none 0).2.synth_calls =
          (edgeOnlyState demoNet).synth_calls + 1) :=
  ⟨rfl, c4_empty_text demoNet " " rfl none 0⟩

/-- C4 counterexample: the request with text `" "` (empty after stripping)
is not rejected — `generate_speech` succeeds, invokes the Edge backend
once, and returns a zero-length payload, contradicting both the upstream
validation and the never-zero-length-on-success contract. -/
theorem c4_counterexample :
    pyStrip " " = "" ∧
      (generate demoSettings (edgeOnlyState demoNet) " " none none none 0).1 =
        Except.ok ("", ⟨false, "EdgeTTSBackend"⟩) ∧
      (generate demoSettings (edgeOnlyState demoNet) " " none none none 0).2.synth_calls =
        1 ∧
      edgeSynth demoNet " " none = Except.ok [] :=
  ⟨rfl, rfl, rfl, rfl⟩

/-! ## C1: repeated identical request served from the cache -/

theorem synthesizePath_ok_cache (settings : Settings) (st : ManagerState)
    (text : String) (voice backend quality : Option String) (now : ℚ)
    (key : String) (p : String) (m : Meta) (s₁ : ManagerState)
    (h : synthesizePath settings st text voice backend quality now key =
      (Except.ok (p, m), s₁)) :
    s₁.cache =
      if settings.cache.enabled then cacheSet settings.cache st.cache key p now
      else st.cache := by
  unfold synthesizePath at h
  cases hsel : selectBackend settings st.backends backend quality with
  | none =>
      rw [hsel] at h
      simp at h
  | some b =>
      rw [hsel] at h
      dsimp only at h
      cases hsy : b.synth text voice with
      | error e =>
          rw [hsy] at h
          simp at h
      | ok bytes =>
          rw [hsy] at h
          dsimp only at h
          simp only [Prod.mk.injEq, Except.ok.injEq] at h
          obtain ⟨⟨hpb, -⟩, hs⟩ := h
          rw [← hs, ← hpb]
          by_cases hen : settings.cache.enabled
          · simp [hen]
          · simp [hen]

theorem lookupKey_cacheSet_self (cfg : CacheConfig) (C : CacheState)
    (key data : String) (now : ℚ) (hen : cfg.enabled = true) :
    lookupKey key (cacheSet cfg C key data now).memory_cache =
      some ⟨data, now, dataSizeMb data⟩ := by
  simp only [cacheSet, hen, if_true, setMemory, insertEntry]
  exact lookupKey_insertOrReplace_self key _ _

/-- C1 (amended): if an earlier `generate_speech` call with parameters
`(text, voice, backend, quality)` synthesized successfully (miss-path
metadata) and returned a NON-EMPTY payload, then a second call with the
identical parameters whose age `t₂ - t₁` is below the TTL returns the
byte-identical payload with `cached = true` and backend label `"cache"`,
increments the manager's cache-hit counter, and invokes no backend's
`generate_speech`.  (For an empty payload the truthiness test
`if cached_audio:` treats the cached value as a miss; see the
counterexample.) -/
theorem c1_cache_hit (settings : Settings) (st : ManagerState)
    (text : String) (voice backend quality : Option String) (t₁ t₂ : ℚ)
    (p : String) (m : Meta) (s₁ : ManagerState)
    (hen : settings.cache.enabled = true)
    (h₁ : generate settings st text voice backend quality t₁ =
      (Except.ok (p, m), s₁))
    (hm : m.cached = false)
    (hp : p ≠ "")
    (httl : t₂ - t₁ < settings.cache.ttl_seconds) :
    (generate settings s₁ text voice backend quality t₂).1 =
        Except.ok (p, ⟨true, "cache"⟩) ∧
      (generate settings s₁ text voice backend quality t₂).2.stats.cache_hits =
        s₁.stats.cache_hits + 1 ∧
      (generate settings s₁ text voice backend quality t₂).2.synth_calls =
        s₁.synth_calls ∧
      (generate settings s₁ text voice backend quality t₂).2.stats.total_requests =
        s₁.stats.total_requests + 1 ∧
      (generate settings s₁ text voice backend quality t₂).2.stats.backend_usage =
        s₁.stats.backend_usage := by
  set key := generate_cache_key text (voice.getD "default")
    (backend.getD "auto") quality with hkey
  unfold generate at h₁
  simp only [hen, if_true, ← hkey] at h₁
  have hcache : s₁.cache =
      cacheSet settings.cache (cacheGet settings.cache st.cache key t₁).2
        key p t₁ := by
    cases hres : (cacheGet settings.cache st.cache key t₁).1 with
    | none =>
        rw [hres] at h₁
        dsimp only at h₁
        have hsp := synthesizePath_ok_cache settings _ text voice backend
          quality t₁ key p m s₁ h₁
        simpa [hen] using hsp
    | some a =>
        rw [hres] at h₁
        dsimp only at h₁
        by_cases ha : a = ""
        · rw [if_pos ha] at h₁
          have hsp := synthesizePath_ok_cache settings _ text voice backend
            quality t₁ key p m s₁ h₁
          simpa [hen] using hsp
        · rw [if_neg ha] at h₁
          exfalso
          simp only [Prod.mk.injEq, Except.ok.injEq] at h₁
          obtain ⟨⟨-, hmeta⟩, -⟩ := h₁
          rw [← hmeta] at hm
          simp at hm
  have hlook : lookupKey key s₁.cache.memory_cache =
      some ⟨p, t₁, dataSizeMb p⟩ := by
    rw [hcache]
    exact lookupKey_cacheSet_self _ _ _ _ _ hen
  have hget : cacheGet settings.cache s₁.cache key t₂ =
      (some p, { s₁.cache with hits := s₁.cache.hits + 1 }) := by
    simp only [cacheGet, hen, if_true, getMemory, hlook]
    rw [if_pos httl]
  unfold generate
  simp only [hen, if_true, ← hkey, hget]
  rw [if_neg hp]
  exact ⟨rfl, rfl, rfl, rfl, rfl⟩

theorem c1_witness :
    (generate demoSettings demoStateAfterFirst "hi" none none none 1).1 =
        Except.ok (audio_to_base64 [1, 2, 3], ⟨true, "cache"⟩) ∧
      (generate demoSettings demoStateAfterFirst "hi" none none none 1).2.stats.cache_hits =
        demoStateAfterFirst.stats.cache_hits + 1 ∧
      (generate demoSettings demoStateAfterFirst "hi" none none none 1).2.synth_calls =
        demoStateAfterFirst.synth_calls := by
  have hfst : (generate demoSettings (edgeOnlyState demoNet) "hi" none none
      none 0).1 =
      Except.ok (audio_to_base64 [1, 2, 3], ⟨false, "EdgeTTSBackend"⟩) := rfl
  have hgen : generate demoSettings (edgeOnlyState demoNet) "hi" none none
      none 0 =
      (Except.ok (audio_to_base64 [1, 2, 3], ⟨false, "EdgeTTSBackend"⟩),
       demoStateAfterFirst) := by
    calc generate demoSettings (edgeOnlyState demoNet) "hi" none none none 0
        = ((generate demoSettings (edgeOnlyState demoNet) "hi" none none
              none 0).1,
           (generate demoSettings (edgeOnlyState demoNet) "hi" none none
              none 0).2) := rfl
      _ = (Except.ok (audio_to_base64 [1, 2, 3], ⟨false, "EdgeTTSBackend"⟩),
           demoStateAfterFirst) := by rw [hfst]; rfl
  obtain ⟨h₁, h₂, h₃, -, -⟩ :=
    c1_cache_hit demoSettings (edgeOnlyState demoNet) "hi" none none none
      0 1 (audio_to_base64 [1, 2, 3]) ⟨false, "EdgeTTSBackend"⟩
      demoStateAfterFirst rfl hgen rfl (by decide)
      (by norm_num [demoSettings])
  exact ⟨h₁, h₂, h₃⟩

/-- C1 counterexample: a successful first call whose payload is empty (the
Edge backend on text `" "`) is cached, but the second identical call within
the TTL is NOT served from the cache: the truthiness test `if cached_audio:`
treats the cached empty string as a miss, so the second call synthesizes
again (`synth_calls` reaches 2) and returns miss-path metadata instead of
`cached=true`/`"cache"`. -/
theorem c1_counterexample :
    (generate demoSettings (edgeOnlyState demoNet) " " none none none 0).1 =
        Except.ok ("", ⟨false, "EdgeTTSBackend"⟩) ∧
      (1 : ℚ) - 0 < demoSettings.cache.ttl_seconds ∧
      (generate demoSettings demoEmptyAfterFirst " " none none none 1).1 =
        Except.ok ("", ⟨false, "EdgeTTSBackend"⟩) ∧
      (generate demoSettings demoEmptyAfterFirst " " none none none 1).2.synth_calls =
        2 := by
  refine ⟨rfl, by norm_num [demoSettings], ?_, ?_⟩ <;>
    norm_num [demoEmptyAfterFirst, generate, synthesizePath, cacheGet,
      cacheSet, getMemory, setMemory, insertEntry, insertOrReplace,
      evictMemory, evictLoop, sortByTs, lookupKey, selectBackend,
      priorityOrder, firstAvailable, edgeOnlyState, edgeBackend, edgeSynth,
      demoSettings, demoNet, initialCache, dataSizeMb_nil, b64_nil,
      pyStrip_space, bumpUsage]

end DanmuTTS
